import Mathlib

/-!
Verification of the `hyp3rd/go-base-app-skel` logging subsystem.

The definitions below are shallow embeddings of the Go code in
`internal/logger` (logger.go, config.go), the `output` package
(file/console/multi writers, background compression) and the async
`adapter` package.  Machine integers are modelled as `Nat` (sizes and
byte counts in the Go code are non-negative and far from overflow),
byte slices as `List Nat`, and fallible operations return `Option` /
`Except` values.  External effects (the file system, channels, the
underlying writers) are modelled by explicit state or by oracles that
choose each step's success or failure.
-/

namespace GoBase

/-- Log levels, mirroring the `Level uint8` constants of `logger.go`
(`TraceLevel = iota`, …, `FatalLevel`). -/
inductive Level where
  | trace
  | debug
  | info
  | warn
  | error
  | fatal
deriving DecidableEq, Repr

/-- The numeric value of a level: `Level` is declared with `iota`, so
`trace = 0`, …, `fatal = 5`; Go compares levels with `<` on `uint8`. -/
def Level.toNat : Level → Nat
  | .trace => 0
  | .debug => 1
  | .info => 2
  | .warn => 3
  | .error => 4
  | .fatal => 5

/-- `Level.String` from `logger.go`. -/
def Level.toName : Level → String
  | .trace => "TRACE"
  | .debug => "DEBUG"
  | .info => "INFO"
  | .warn => "WARN"
  | .error => "ERROR"
  | .fatal => "FATAL"

/-- Go's `l < r` on the `uint8`-backed `Level`. -/
def Level.ltB (l r : Level) : Bool := l.toNat < r.toNat

/-! ### File writer: `FileWriter.Write` and `FileWriter.rotate`

`FileWriter` keeps a mutex (irrelevant sequentially), an open file, the
path, `maxSize`, the running `size` counter and the `compress` flag.
We model the active file's contents directly as a byte list, and keep
the rotated-away contents so rotation is observable.  `rotate` can fail
in Go (close / rename / open errors); the `rotateOk` oracle selects
that outcome: on failure `Write` returns `(0, error)` with nothing
written. -/

structure FileWriterSt where
  maxSize : Nat
  size : Nat
  /-- Bytes of the currently open file at the original path. -/
  cur : List Nat
  /-- Contents moved aside by rotation, most recent first. -/
  backups : List (List Nat)
deriving DecidableEq, Repr

/-- `FileWriter.rotate`: rename the active file to a timestamped
backup and open a fresh (empty, append-mode) file at the original
path, resetting the size counter (`w.size = 0`). -/
def FileWriterSt.rotate (w : FileWriterSt) : FileWriterSt :=
  { w with backups := w.cur :: w.backups, cur := [], size := 0 }

/-- Outcome of one `FileWriter.Write` call: the final writer state, the
byte count returned, the returned error, and whether a rotation was
performed. -/
structure FileWriteOut where
  st : FileWriterSt
  bytes : Nat
  err : Option String
  rotated : Bool
deriving DecidableEq, Repr

/-- `FileWriter.Write`: rotate first when
`w.size + int64(len(data)) > w.maxSize`, then append `data` to the
current file and add the written count to `w.size`.  `rotateOk` is the
oracle for the fallible close/rename/open steps inside `rotate`; when
it is `false`, `Write` returns `(0, wrapped error)` without writing. -/
def FileWriterSt.write (w : FileWriterSt) (data : List Nat) (rotateOk : Bool) :
    FileWriteOut :=
  if w.size + data.length > w.maxSize then
    if rotateOk then
      let w1 := w.rotate
      { st := { w1 with cur := w1.cur ++ data, size := w1.size + data.length },
        bytes := data.length, err := none, rotated := true }
    else
      { st := w, bytes := 0, err := some "rotating log file", rotated := false }
  else
    { st := { w with cur := w.cur ++ data, size := w.size + data.length },
      bytes := data.length, err := none, rotated := false }

/-! ### Multi-writer: `MultiWriter.Write` and its helpers

A registered writer is modelled by its diagnostic name (Go stores
`"%T[%d]"` strings in `writerNames`) and its write behaviour: a
function from the payload to the `(int, error)` pair that the
underlying `Write` returns.  `mw.Writers` may in principle hold `nil`
slots (the Go loop skips them), so the list carries `Option`s. -/

structure WriterB where
  name : String
  writeFn : List Nat → Nat × Option String

/-- `WriteResult` from the `output` package. -/
structure WriteResult where
  name : String
  bytes : Nat
  err : Option String
deriving DecidableEq, Repr

/-- The result recorded for one writer by `performWrites`' loop body. -/
def applyWrite (payload : List Nat) (w : WriterB) : WriteResult :=
  { name := w.name, bytes := (w.writeFn payload).1, err := (w.writeFn payload).2 }

/-- `MultiWriter.performWrites`: iterate over `mw.Writers` in order,
skip `nil` entries, call `writer.Write(payload)` on every other one
and record a `WriteResult` (no early exit on failure). -/
def performWrites (writers : List (Option WriterB)) (payload : List Nat) :
    List WriteResult :=
  match writers with
  | [] => []
  | none :: rest => performWrites rest payload
  | some w :: rest => applyWrite payload w :: performWrites rest payload

/-- The success test of `processResults`:
`result.Err == nil && result.Bytes == expectedBytes`. -/
def isSuccessB (expected : Nat) (r : WriteResult) : Bool :=
  r.err == none && r.bytes == expected

/-- The failure string `processResults` appends:
`"%s: wrote %d/%d bytes (%s)"` with the reason `"incomplete write"`
replaced by `Err.Error()` when an error is present. -/
def failureMsg (expected : Nat) (r : WriteResult) : String :=
  let reason := match r.err with
    | some e => e
    | none => "incomplete write"
  r.name ++ ": wrote " ++ toString r.bytes ++ "/" ++ toString expected ++
    " bytes (" ++ reason ++ ")"

/-- `MultiWriter.processResults`: one pass over the results counting
successes and collecting, in order, a failure string for every
non-success. -/
def processResults (results : List WriteResult) (expected : Nat) :
    Nat × List String :=
  ((results.filter (isSuccessB expected)).length,
   (results.filter (fun r => !isSuccessB expected r)).map (failureMsg expected))

/-- The loop of `createErrorReport` that prints `"    - %s\n"` for each
failure. -/
def failureLines : List String → String
  | [] => ""
  | f :: rest => "    - " ++ f ++ "\n" ++ failureLines rest

/-- `MultiWriter.createErrorReport`: the aggregated diagnostic string. -/
def createErrorReport (results : List WriteResult) (successCount : Nat)
    (failures : List String) : String :=
  "Write operation status:\n" ++
  "  Total writers: " ++ toString results.length ++ "\n" ++
  "  Successful writes: " ++ toString successCount ++ "\n" ++
  "  Failed writes: " ++ toString failures.length ++ "\n" ++
  "  Failures:\n" ++
  failureLines failures

/-- `MultiWriter.writeToWriters` (the body of `MultiWriter.Write`):
perform all writes, classify them, and return `len(payload)` together
with `nil` when every writer succeeded or the aggregated error
otherwise. -/
def writeToWriters (writers : List (Option WriterB)) (payload : List Nat) :
    Nat × Option String :=
  let expected := payload.length
  let results := performWrites writers payload
  let sf := processResults results expected
  if sf.2.isEmpty then (expected, none)
  else (expected, some (createErrorReport results sf.1 sf.2))

/-- `hay` contains `needle` as a contiguous substring (stated on the
underlying character lists). -/
def strHas (hay needle : String) : Prop :=
  ∃ a b, hay.data = a ++ needle.data ++ b

/-! ### Background compression: `FileWriter.performCompression`

Each fallible file-system / gzip step is resolved by an oracle bit.
`gzip.NewWriterLevel` is omitted: it fails only for a level outside
`[-2, 9]`, and the code passes the constant `gzip.BestCompression`
(9), so that branch is unreachable.  The observable file-system state
is whether the source backup file and the `.gz` artifact exist; the
run starts with the backup present and no `.gz` file. -/

structure CompressOracle where
  /-- `os.Open(path)` succeeds. -/
  openSrcOk : Bool
  /-- `os.OpenFile(path+".gz", O_CREATE|O_WRONLY, 0644)` succeeds. -/
  createDstOk : Bool
  /-- `copyWithBuffer` succeeds. -/
  copyOk : Bool
  /-- `gzipWriter.Close()` succeeds. -/
  gzCloseOk : Bool
  /-- `compressed.Sync()` succeeds. -/
  syncOk : Bool
  /-- `compressed.Close()` succeeds. -/
  closeDstOk : Bool
  /-- `os.Stat` succeeds and reports a non-zero size. -/
  statNonEmpty : Bool
  /-- Re-opening and `gzip.NewReader` validation succeeds. -/
  gzipValid : Bool
  /-- `os.Remove(path)` on the original backup succeeds. -/
  removeSrcOk : Bool
deriving DecidableEq, Repr

structure CompressFS where
  /-- The original (uncompressed) backup file exists. -/
  srcExists : Bool
  /-- The `.gz` artifact exists. -/
  gzExists : Bool
deriving DecidableEq, Repr

/-- `verifyCompressedFile`: stat the `.gz` file, require non-zero
size, then open it through `gzip.NewReader`. -/
def verifyCompressedFile (o : CompressOracle) : Option String :=
  if !o.statNonEmpty then some "compressed file is empty or unreadable"
  else if !o.gzipValid then some "verifying gzip format"
  else none

/-- `FileWriter.performCompression`, run from the state where the
rotated backup exists and no `.gz` file does.  Every failure branch
mirrors the Go code: once the `.gz` file has been created, each
failing step removes it before returning; the original backup is
removed only in the final step, after verification, and when that
removal itself fails the `.gz` file is removed instead. -/
def performCompression (o : CompressOracle) : CompressFS × Option String :=
  if !o.openSrcOk then
    ({ srcExists := true, gzExists := false }, some "opening source file")
  else if !o.createDstOk then
    ({ srcExists := true, gzExists := false }, some "creating compressed file")
  else if !o.copyOk then
    ({ srcExists := true, gzExists := false }, some "copying file content")
  else if !o.gzCloseOk then
    ({ srcExists := true, gzExists := false }, some "closing gzip writer")
  else if !o.syncOk then
    ({ srcExists := true, gzExists := false }, some "syncing compressed file")
  else if !o.closeDstOk then
    ({ srcExists := true, gzExists := false }, some "closing compressed file")
  else
    match verifyCompressedFile o with
    | some e => ({ srcExists := true, gzExists := false }, some e)
    | none =>
      if !o.removeSrcOk then
        ({ srcExists := true, gzExists := false }, some "removing original file")
      else
        ({ srcExists := false, gzExists := true }, none)

/-! ### Close idempotence: the three writer variants

`FileWriter.Close` syncs, closes and sets `w.file = nil`; a call on an
already-closed writer returns `nil` immediately.  `ConsoleWriter.Close`
has no closed flag: every call forwards to the underlying writer's
`Close` (when it implements `io.Closer`) and wraps its error.
`MultiWriter.Close` closes every registered writer, then nils out and
drops the writer list, so a second call iterates over nothing. -/

/-- `FileWriter` close-relevant state: whether `w.file` is non-nil and
oracles for the final `Sync` and `Close` on the handle. -/
structure FileWriterC where
  isOpen : Bool
  syncOk : Bool
  closeOk : Bool
deriving DecidableEq, Repr

/-- `FileWriter.Close`. -/
def FileWriterC.close (w : FileWriterC) : FileWriterC × Option String :=
  if !w.isOpen then (w, none)
  else if !w.syncOk then (w, some "final sync before close")
  else if !w.closeOk then (w, some "closing log file")
  else ({ w with isOpen := false }, none)

/-- The output sink held by a `ConsoleWriter`: either it does not
implement `io.Closer` (`closeFn = none`), or closing it for the
`n`-th time (0-based) yields `closeFn n`. -/
structure UnderlyingOut where
  closeFn : Option (Nat → Option String)

/-- `ConsoleWriter` state: the wrapped output plus how many times it
has been closed so far (the Go struct itself keeps no closed flag; the
counter only indexes the underlying closer's behaviour). -/
structure ConsoleWriterSt where
  out : UnderlyingOut
  closedCount : Nat

/-- `ConsoleWriter.Close`: forward to the underlying closer every
time, wrapping its error with `"closing console output"`. -/
def ConsoleWriterSt.close (w : ConsoleWriterSt) : ConsoleWriterSt × Option String :=
  match w.out.closeFn with
  | none => (w, none)
  | some f =>
    match f w.closedCount with
    | some e =>
      ({ w with closedCount := w.closedCount + 1 }, some ("closing console output: " ++ e))
    | none => ({ w with closedCount := w.closedCount + 1 }, none)

/-- A writer registered in a `MultiWriter`, for the close path: its
one-shot close outcome. -/
structure MWriterC where
  name : String
  closeErr : Option String

/-- `MultiWriter.Close`: close every non-nil writer collecting error
strings, then nil out and drop the writer list; return an aggregated
error when any close failed. -/
def multiClose (writers : List (Option MWriterC)) :
    List (Option MWriterC) × Option String :=
  let closeErrors := writers.filterMap (fun w? =>
    match w? with
    | none => none
    | some w => w.closeErr.map (fun e => w.name ++ ": " ++ e))
  ([], if closeErrors.isEmpty then none
       else some "close operation partially failed")

/-! ### Structured fields and text rendering

`logger.Field` carries an `interface{}` value; the text renderer
type-switches on `string`, `time.Time` and `error` (each written
inside double quotes) and falls back to `%v` for everything else.  The
embedding keeps one constructor per arm of that switch; for `time`
values we store the already-formatted RFC3339 string and for the `%v`
fallback the string `fmt` would produce, since the rendering logic
never inspects the values beyond their type. -/

inductive FieldValue where
  | str (s : String)
  | time (rfc3339 : String)
  | err (msg : String)
  | other (rendered : String)
deriving DecidableEq, Repr

structure FieldV where
  key : String
  value : FieldValue
deriving DecidableEq, Repr

/-- `writeField`: `key=` followed by the type-switched value rendering
(strings, times and errors quoted, everything else via `%v`). -/
def writeField (f : FieldV) : String :=
  f.key ++ "=" ++
    match f.value with
    | .str s => "\"" ++ s ++ "\""
    | .time t => "\"" ++ t ++ "\""
    | .err e => "\"" ++ e ++ "\""
    | .other v => v

/-- The `for i, field` loops of `writeTextLog`: render each field,
writing `", "` before every field but the first. -/
def joinComma : List FieldV → String
  | [] => ""
  | [f] => writeField f
  | f :: g :: rest => writeField f ++ ", " ++ joinComma (g :: rest)

/-- `fmt.Fprintf(buf, "%-5s", …)`: the level name left-justified in a
field of width 5 (names longer than 5 are not truncated). -/
def padLevel (l : Level) : String :=
  l.toName ++ String.mk (List.replicate (5 - l.toName.length) ' ')

/-- The slice of `logger.Config` that the adapter's formatting and
filtering read (`Level`, `TimeFormat`, `DisableTimestamp`,
`AdditionalFields`).  The adapter embeds the config **by value**. -/
structure AConfig where
  level : Level
  timeFormat : String
  disableTimestamp : Bool
  additionalFields : List FieldV
deriving DecidableEq, Repr

/-- A queued `logEntry` of the adapter: the timestamp is kept as the
string `Timestamp.Format(TimeFormat)` produces, the caller as the
`file:line` string (empty when caller capture is off). -/
structure LogEntryM where
  level : Level
  message : String
  fields : List FieldV
  timestampFmt : String
  caller : String
deriving DecidableEq, Repr

/-- `adapter.writeTextLog`: timestamp (when enabled) and a space, the
level padded to width 5 and a space, `[caller] ` when a caller is
present, the message, then — when the entry or the config carries any
fields — a brace-wrapped comma-joined field list: entry fields first,
a separating comma when both lists are non-empty, then the config's
additional fields. -/
def writeTextLog (cfg : AConfig) (e : LogEntryM) : String :=
  (if !cfg.disableTimestamp then e.timestampFmt ++ " " else "") ++
  (padLevel e.level ++ " ") ++
  (if e.caller != "" then "[" ++ e.caller ++ "] " else "") ++
  e.message ++
  (if e.fields.length > 0 || cfg.additionalFields.length > 0 then
    " \x7b" ++ joinComma e.fields ++
    (if e.fields.length > 0 && cfg.additionalFields.length > 0 then ", " else "") ++
    joinComma cfg.additionalFields ++ "\x7d"
   else "")

/-- The level "left-padded to fixed width 5" as the spec words it:
padding spaces on the left of the name. -/
def specPadLevel (l : Level) : String :=
  String.mk (List.replicate (5 - l.toName.length) ' ') ++ l.toName

/-- Rendering template modelled from the spec sentence: text mode
renders `[timestamp] LEVEL [caller] message \x7bfield=value, ...\x7d`
— the timestamp inside square brackets and the level left-padded to
width 5.  Stated for entries with timestamp enabled, a caller and at
least one field, which is where the template is unambiguous. -/
def specTextRender (cfg : AConfig) (e : LogEntryM) : String :=
  "[" ++ e.timestampFmt ++ "] " ++
  (specPadLevel e.level ++ " ") ++
  "[" ++ e.caller ++ "] " ++
  e.message ++
  " \x7b" ++ joinComma (e.fields ++ cfg.additionalFields) ++ "\x7d"

/-! ### Logger views: `WithFields`, `SetLevel`, `GetLevel`

The Go adapter struct holds `config logger.Config` (a struct, copied
by value on assignment), the slice `fields`, and the shared handles
`buffer chan logEntry`, `done chan struct{}` and `wg *sync.WaitGroup`.
`WithFields` builds a **new** adapter that copies the config struct
and the field slice but aliases the three handles; the handles are
modelled by identity tokens. -/

structure AdapterM where
  config : AConfig
  fields : List FieldV
  /-- Identity of the shared `buffer` channel. -/
  bufferId : Nat
  /-- Identity of the shared `done` channel. -/
  doneId : Nat
  /-- Identity of the shared `*sync.WaitGroup`. -/
  wgId : Nat
deriving DecidableEq, Repr

/-- `adapter.WithFields`: new adapter with `config: a.config` (struct
copy), the same `buffer`/`done`/`wg` handles, and a fresh field slice
holding `a.fields` followed by the new fields. -/
def AdapterM.withFields (a : AdapterM) (fs : List FieldV) : AdapterM :=
  { config := a.config
    bufferId := a.bufferId
    doneId := a.doneId
    wgId := a.wgId
    fields := a.fields ++ fs }

/-- `adapter.SetLevel`: assign `a.config.Level` on this adapter (an
in-place update of this object's own config copy). -/
def AdapterM.setLevel (a : AdapterM) (l : Level) : AdapterM :=
  { a with config := { a.config with level := l } }

/-- `adapter.GetLevel`. -/
def AdapterM.getLevel (a : AdapterM) : Level :=
  a.config.level

/-! ### The async pipeline: `adapter.log`, `processLogs`, drain

The bounded `buffer` channel, its consumer and the sink are collapsed
into one state.  `log` first applies the level filter
(`level < config.Level` → return), then offers the entry to the
queue: when the channel has capacity the `select` send fires, and on
the `bufferTimeout` path the entry is written synchronously on the
caller via `writeLog`.  A worker step moves the head of the queue to
the sink (`processLogs` receiving one entry and calling `writeLog`).
The scheduler's freedom is the interleaving of events. -/

inductive LogOutcome where
  | filtered
  | queued
  | syncWritten
deriving DecidableEq, Repr

structure LogSys where
  /-- Channel capacity (`config.AsyncBufferSize`). -/
  cap : Nat
  /-- `config.Level` of the logging adapter. -/
  minLevel : Level
  /-- Entries buffered in the `buffer` channel, oldest first. -/
  queue : List LogEntryM
  /-- Entries already handed to the sink, in write order. -/
  sink : List LogEntryM
deriving DecidableEq, Repr

/-- `adapter.log`: drop the entry when `level < config.Level`; else
enqueue when the bounded channel has space, and otherwise (timeout on
a full queue) write synchronously on the calling thread. -/
def LogSys.logStep (s : LogSys) (e : LogEntryM) : LogSys × LogOutcome :=
  if e.level.ltB s.minLevel then (s, .filtered)
  else if s.queue.length < s.cap then
    ({ s with queue := s.queue ++ [e] }, .queued)
  else
    ({ s with sink := s.sink ++ [e] }, .syncWritten)

/-- One iteration of `processLogs`: receive the oldest buffered entry
and write it; a no-op when the queue is empty. -/
def LogSys.workerStep (s : LogSys) : LogSys :=
  match s.queue with
  | [] => s
  | e :: rest => { s with queue := rest, sink := s.sink ++ [e] }

/-- An event of an execution: a producer's `log` call, or the worker
consuming one entry. -/
inductive Ev where
  | log (e : LogEntryM)
  | work

/-- Run an execution from a state. -/
def LogSys.run (s : LogSys) : List Ev → LogSys
  | [] => s
  | .log e :: rest => ((s.logStep e).1).run rest
  | .work :: rest => s.workerStep.run rest

/-- The shutdown drain of `processLogs`: after `done` is observed the
worker moves every remaining buffered entry to the sink. -/
def drainQ : List LogEntryM → List LogEntryM → List LogEntryM
  | [], sink => sink
  | e :: rest, sink => drainQ rest (sink ++ [e])

def LogSys.drain (s : LogSys) : LogSys :=
  { s with queue := [], sink := drainQ s.queue s.sink }

/-- The entries of an execution that pass the level filter, in event
order. -/
def accepted (minLevel : Level) : List Ev → List LogEntryM
  | [] => []
  | .log e :: rest =>
    if e.level.ltB minLevel then accepted minLevel rest
    else e :: accepted minLevel rest
  | .work :: rest => accepted minLevel rest

/-! ### Shutdown: `adapter.Sync`

`Sync` runs `close(a.done)`, `close(a.buffer)`, `a.wg.Wait()` and then
the sink's `Sync`.  Go's `close` panics on an already-closed channel;
the two closed flags live on the channels shared by the whole family
of derived loggers.  The `wg.Wait()` and sink sync steps never panic
and are modelled as successful. -/

structure SyncState where
  doneClosed : Bool
  bufferClosed : Bool
deriving DecidableEq, Repr

/-- Go's `close` on a channel: panics when the channel is already
closed. -/
def closeChan (alreadyClosed : Bool) : Except String Unit :=
  if alreadyClosed then .error "close of closed channel" else .ok ()

/-- `adapter.Sync` on the shared channel state; an `.error` result is
a runtime panic. -/
def adapterSync (s : SyncState) : Except String SyncState :=
  match closeChan s.doneClosed with
  | .error e => .error e
  | .ok _ =>
    match closeChan s.bufferClosed with
    | .error e => .error e
    | .ok _ => .ok { doneClosed := true, bufferClosed := true }

/-! ### Concrete instances used by witnesses and counterexamples -/

/-- A writer that succeeds, reporting the full byte count. -/
def okWriter (name : String) : WriterB :=
  { name := name, writeFn := fun p => (p.length, none) }

/-- A writer whose `Write` fails without writing anything. -/
def failWriter (name : String) : WriterB :=
  { name := name, writeFn := fun _ => (0, some "disk full") }

def demoWriters : List (Option WriterB) :=
  [some (okWriter "*output.FileWriter[0]"),
   some (failWriter "*output.ConsoleWriter[1]"),
   some (okWriter "*output.FileWriter[2]")]

def demoPayload : List Nat := [104, 105, 10]

/-- The aggregated report `writeToWriters demoWriters demoPayload`
produces. -/
def demoReport : String :=
  "Write operation status:\n  Total writers: 3\n  Successful writes: 2\n" ++
  "  Failed writes: 1\n  Failures:\n" ++
  "    - *output.ConsoleWriter[1]: wrote 0/3 bytes (disk full)\n"

/-- An underlying console sink that behaves like an `*os.File`: the
first `Close` succeeds, any further `Close` returns an error (Go's
`os.ErrClosed`, "file already closed"). -/
def fileLikeOut : UnderlyingOut :=
  { closeFn := some (fun n => if n = 0 then none else some "file already closed") }

/-- An underlying closer that never errors, however often it is
closed. -/
def consoleCloserIdempotent (o : UnderlyingOut) : Prop :=
  ∀ f, o.closeFn = some f → ∀ n, f n = none

def demoConfig : AConfig :=
  { level := .info
    timeFormat := "2006-01-02T15:04:05Z07:00"
    disableTimestamp := false
    additionalFields := [] }

def demoParent : AdapterM :=
  { config := demoConfig, fields := [], bufferId := 0, doneId := 0, wgId := 0 }

def demoEntry : LogEntryM :=
  { level := .info
    message := "hello"
    fields := [{ key := "a", value := .other "1" }]
    timestampFmt := "2026-01-01T00:00:00Z"
    caller := "main.go:10" }

/-- The entry a `log` call on
`demoParent.withFields [a:1] |>.withFields [a:2]` snapshots. -/
def demoEntryDup : LogEntryM :=
  { level := .info
    message := "m"
    fields := ((demoParent.withFields [{ key := "a", value := .other "1" }]).withFields
        [{ key := "a", value := .other "2" }]).fields
    timestampFmt := "ts"
    caller := "" }

def entA : LogEntryM :=
  { level := .info, message := "A", fields := [], timestampFmt := "t", caller := "" }

def entB : LogEntryM :=
  { level := .info, message := "B", fields := [], timestampFmt := "t", caller := "" }

/-- A `Debug` entry, filtered out under an `Info` minimum. -/
def entC : LogEntryM :=
  { level := .debug, message := "C", fields := [], timestampFmt := "t", caller := "" }

/-- A demo execution against capacity 1: enqueue, overflow to the
synchronous fallback, one worker step, one filtered call, enqueue. -/
def demoEvs : List Ev :=
  [.log entA, .log entB, .work, .log entC, .log entB]

/-! ## Helper lemmas -/

theorem strHas_append_left (pre s needle : String) (h : strHas s needle) :
    strHas (pre ++ s) needle := by
  obtain ⟨a, b, hab⟩ := h
  exact ⟨pre.data ++ a, b, by simp [String.data_append, hab]⟩

theorem strHas_mono {hay f name : String} (h : strHas hay f)
    (hf : ∃ t, f.data = name.data ++ t) : strHas hay name := by
  obtain ⟨a, b, hab⟩ := h
  obtain ⟨t, ht⟩ := hf
  exact ⟨a, t ++ b, by simp [hab, ht]⟩

theorem failureLines_has {fs : List String} {f : String} (hf : f ∈ fs) :
    strHas (failureLines fs) f := by
  induction fs with
  | nil => cases hf
  | cons g rest ih =>
    rcases List.mem_cons.mp hf with h | h
    · subst h
      exact ⟨"    - ".data, "\n".data ++ (failureLines rest).data,
        by simp [failureLines, String.data_append]⟩
    · exact strHas_append_left _ _ _ (ih h)

theorem failureMsg_data (e : Nat) (r : WriteResult) :
    ∃ t, (failureMsg e r).data = r.name.data ++ t := by
  cases he : r.err with
  | none =>
    refine ⟨(": wrote " ++ toString r.bytes ++ "/" ++ toString e ++
      " bytes (incomplete write)").data, ?_⟩
    simp [failureMsg, he, String.data_append]
  | some msg =>
    refine ⟨(": wrote " ++ toString r.bytes ++ "/" ++ toString e ++
      " bytes (" ++ msg ++ ")").data, ?_⟩
    simp [failureMsg, he, String.data_append]

theorem performWrites_eq (writers : List (Option WriterB)) (payload : List Nat) :
    performWrites writers payload = (writers.filterMap id).map (applyWrite payload) := by
  induction writers with
  | nil => rfl
  | cons w rest ih => cases w <;> simp [performWrites, ih]

theorem writeToWriters_snd (writers : List (Option WriterB)) (payload : List Nat) :
    (writeToWriters writers payload).2 =
      (if (performWrites writers payload).filter
           (fun r => !isSuccessB payload.length r) = [] then none
       else some (createErrorReport (performWrites writers payload)
         ((performWrites writers payload).filter (isSuccessB payload.length)).length
         (((performWrites writers payload).filter
             (fun r => !isSuccessB payload.length r)).map (failureMsg payload.length)))) := by
  simp only [writeToWriters, processResults, List.isEmpty_iff, List.map_eq_nil_iff]
  split <;> rfl

theorem writeToWriters_none_iff (writers : List (Option WriterB)) (payload : List Nat) :
    (writeToWriters writers payload).2 = none ↔
      ∀ r ∈ performWrites writers payload, isSuccessB payload.length r = true := by
  rw [writeToWriters_snd]
  split
  next h =>
    constructor
    · intro _ r hr
      by_contra hf
      have hmem : r ∈ (performWrites writers payload).filter
          (fun r => !isSuccessB payload.length r) :=
        List.mem_filter.mpr ⟨hr, by simp_all⟩
      simp [h] at hmem
    · intro _
      rfl
  next h =>
    constructor
    · intro hc
      cases hc
    · intro hall
      exact absurd (List.filter_eq_nil_iff.mpr (fun r hr => by simp [hall r hr])) h

/-! ## Claims -/

/-- C1: a single `MultiWriter.Write` call invokes `Write` exactly once
on every registered non-nil writer, in order and with no short-circuit
on earlier failures; it always returns `len(payload)` as the written
count; it returns an error iff some writer errored or reported a byte
count other than `len(payload)`; and the aggregated error's text
contains the name of every failing or incomplete writer. -/
theorem multiWriter_write_spec (writers : List (Option WriterB)) (payload : List Nat) :
    performWrites writers payload = (writers.filterMap id).map (applyWrite payload) ∧
    (writeToWriters writers payload).1 = payload.length ∧
    ((writeToWriters writers payload).2 ≠ none ↔
      ∃ r ∈ performWrites writers payload, isSuccessB payload.length r = false) ∧
    (∀ r ∈ performWrites writers payload, isSuccessB payload.length r = false →
      ∀ s, (writeToWriters writers payload).2 = some s → strHas s r.name) := by
  refine ⟨performWrites_eq writers payload, ?_, ?_, ?_⟩
  · simp only [writeToWriters, processResults]
    split <;> rfl
  · constructor
    · intro hne
      by_contra hno
      push_neg at hno
      refine hne ((writeToWriters_none_iff writers payload).mpr (fun r hr => ?_))
      rcases Bool.eq_false_or_eq_true (isSuccessB payload.length r) with ht | hf
      · exact ht
      · exact absurd hf (hno r hr)
    · rintro ⟨r, hr, hfail⟩ h0
      have := (writeToWriters_none_iff writers payload).mp h0 r hr
      simp [hfail] at this
  · intro r hr hfail s hs
    rw [writeToWriters_snd] at hs
    split at hs
    next => cases hs
    next h =>
      cases hs
      have fmem : failureMsg payload.length r ∈
          ((performWrites writers payload).filter
            (fun r => !isSuccessB payload.length r)).map (failureMsg payload.length) :=
        List.mem_map_of_mem _ (List.mem_filter.mpr ⟨hr, by simp [hfail]⟩)
      have h1 := failureLines_has fmem
      have h2 := strHas_mono h1 (failureMsg_data payload.length r)
      exact strHas_append_left _ _ _ h2

theorem multiWriter_write_spec_witness :
    (writeToWriters demoWriters demoPayload).1 = 3 ∧
    (writeToWriters demoWriters demoPayload).2 = some demoReport ∧
    strHas demoReport "*output.ConsoleWriter[1]" := by
  have h := multiWriter_write_spec demoWriters demoPayload
  refine ⟨by rfl, by rfl, ?_⟩
  exact h.2.2.2 (WriteResult.mk "*output.ConsoleWriter[1]" 0 (some "disk full"))
    (by decide) (by decide) demoReport (by rfl)

/-- C2: a `FileWriter.Write` call rotates exactly once, and does so
before the data is written, iff `size + len(data) > maxSize`; a
successful rotation resets the size counter to zero and opens an
empty file at the original path, so the incoming data becomes the
first bytes of the fresh file; otherwise the data is appended with no
rotation.  `ok` resolves the fallible close/rename/open steps inside
`rotate`; a failed rotation writes nothing and returns the error. -/
theorem fileWriter_rotation_spec (w : FileWriterSt) (d : List Nat) (ok : Bool) :
    ((w.write d ok).rotated = true ↔ (w.size + d.length > w.maxSize ∧ ok = true)) ∧
    ((w.write d ok).rotated = true →
      w.rotate.size = 0 ∧ w.rotate.cur = [] ∧
      (w.write d ok).st.cur = d ∧ (w.write d ok).st.size = d.length ∧
      (w.write d ok).st.backups = w.cur :: w.backups ∧
      (w.write d ok).bytes = d.length ∧ (w.write d ok).err = none) ∧
    (¬ w.size + d.length > w.maxSize →
      (w.write d ok).rotated = false ∧
      (w.write d ok).st.cur = w.cur ++ d ∧
      (w.write d ok).st.size = w.size + d.length ∧
      (w.write d ok).st.backups = w.backups ∧
      (w.write d ok).bytes = d.length ∧ (w.write d ok).err = none) ∧
    (w.size + d.length > w.maxSize → ok = false →
      (w.write d ok).err = some "rotating log file" ∧ (w.write d ok).st = w) := by
  by_cases h : w.size + d.length > w.maxSize
  · cases ok with
    | false => simp [FileWriterSt.write, h]
    | true => simp [FileWriterSt.write, FileWriterSt.rotate, h]
  · simp [FileWriterSt.write, FileWriterSt.rotate, h]

theorem fileWriter_rotation_spec_witness :
    ((FileWriterSt.mk 5 4 [1, 2, 3, 4] []).write [7, 8] true).rotated = true ∧
    ((FileWriterSt.mk 5 4 [1, 2, 3, 4] []).write [7, 8] true).st.cur = [7, 8] ∧
    ((FileWriterSt.mk 5 4 [1, 2, 3, 4] []).write [7, 8] true).st.size = 2 ∧
    ((FileWriterSt.mk 5 4 [1, 2, 3, 4] []).write [7, 8] true).st.backups = [[1, 2, 3, 4]] ∧
    ((FileWriterSt.mk 5 0 [] []).write [7, 8] true).rotated = false := by
  have h := fileWriter_rotation_spec (FileWriterSt.mk 5 4 [1, 2, 3, 4] []) [7, 8] true
  have hrot : ((FileWriterSt.mk 5 4 [1, 2, 3, 4] []).write [7, 8] true).rotated = true :=
    h.1.mpr (by constructor <;> decide)
  have hpost := h.2.1 hrot
  have h0 := fileWriter_rotation_spec (FileWriterSt.mk 5 0 [] []) [7, 8] true
  exact ⟨hrot, hpost.2.2.1, hpost.2.2.2.1, hpost.2.2.2.2.1, (h0.2.2.1 (by decide)).1⟩

/-- C5: a `log` call produces an entry (queued or synchronously
written) iff the message level is at or above the configured minimum
(`level < config.Level` is a strict comparison); a filtered call
leaves the queue and the sink untouched. -/
theorem level_filtering_spec (s : LogSys) (e : LogEntryM) :
    (((s.logStep e).2 = .queued ∨ (s.logStep e).2 = .syncWritten) ↔
      s.minLevel.toNat ≤ e.level.toNat) ∧
    ((s.logStep e).2 = .filtered → (s.logStep e).1 = s) := by
  by_cases hl : e.level.ltB s.minLevel
  · have hn : ¬ s.minLevel.toNat ≤ e.level.toNat := by
      simp [Level.ltB] at hl; omega
    simp [LogSys.logStep, hl, hn]
  · have hn : s.minLevel.toNat ≤ e.level.toNat := by
      simp [Level.ltB] at hl; omega
    by_cases hq : s.queue.length < s.cap <;> simp [LogSys.logStep, hl, hq, hn]

theorem level_filtering_spec_witness :
    ((((LogSys.mk 4 .warn [] []).logStep demoEntry).2 = .queued ∨
      ((LogSys.mk 4 .warn [] []).logStep demoEntry).2 = .syncWritten) ↔
      Level.warn.toNat ≤ Level.info.toNat) ∧
    ((LogSys.mk 4 .warn [] []).logStep demoEntry).1 = LogSys.mk 4 .warn [] [] := by
  have h := level_filtering_spec (LogSys.mk 4 .warn [] []) demoEntry
  exact ⟨h.1, h.2 (by decide)⟩

/-- C3: in a background-compression run, the rotated backup file is
removed only on full success — after the `.gz` file has been written,
the gzip stream closed, the file fsynced and closed, and verification
(non-empty `stat`, structurally valid gzip) passed; a failure at any
step removes the `.gz` artifact and leaves the backup intact. -/
theorem compression_preserves_backup (o : CompressOracle) :
    ((performCompression o).2 ≠ none →
      (performCompression o).1.gzExists = false ∧
      (performCompression o).1.srcExists = true) ∧
    ((performCompression o).1.srcExists = false →
      (performCompression o).2 = none ∧
      o.copyOk = true ∧ o.gzCloseOk = true ∧ o.syncOk = true ∧
      o.closeDstOk = true ∧ o.statNonEmpty = true ∧ o.gzipValid = true) ∧
    ((performCompression o).2 = none →
      (performCompression o).1.srcExists = false ∧
      (performCompression o).1.gzExists = true) := by
  obtain ⟨a, b, c, d, e, f, g, h, i⟩ := o
  cases a <;> cases b <;> cases c <;> cases d <;> cases e <;> cases f <;>
    cases g <;> cases h <;> cases i <;> decide

theorem compression_preserves_backup_witness :
    (performCompression
        (CompressOracle.mk true true false true true true true true true)).1.gzExists = false ∧
    (performCompression
        (CompressOracle.mk true true false true true true true true true)).1.srcExists = true ∧
    (performCompression
        (CompressOracle.mk true true true true true true true true true)).1.srcExists = false ∧
    (performCompression
        (CompressOracle.mk true true true true true true true true true)).1.gzExists = true := by
  have hfail := (compression_preserves_backup
    (CompressOracle.mk true true false true true true true true true)).1 (by decide)
  have hok := (compression_preserves_backup
    (CompressOracle.mk true true true true true true true true true)).2.2 (by decide)
  exact ⟨hfail.1, hfail.2, hok.1, hok.2⟩

/-- C4 counterexample: the claim fails for the Console writer.
`ConsoleWriter.Close` keeps no closed flag and forwards every call to
the underlying writer's `Close`; with an `*os.File`-like sink — whose
second `Close` returns Go's `os.ErrClosed` ("file already closed") —
the first `close()` succeeds but the second returns a wrapped error
instead of nil. -/
theorem console_close_second_counterexample :
    ((ConsoleWriterSt.mk fileLikeOut 0).close).2 = none ∧
    (((ConsoleWriterSt.mk fileLikeOut 0).close).1.close).2 =
      some "closing console output: file already closed" :=
  ⟨rfl, rfl⟩

/-- C4 (amended): double close never panics, and the second call
returns nil for the File writer (after a successful first close,
`w.file = nil` short-circuits) and for the Multi writer (the first
close clears the writer list).  For the Console writer the second
call returns nil only when the wrapped output implements no closer or
its closer never errors; otherwise the underlying error is returned
(wrapped), as the counterexample shows. -/
theorem close_idempotent_amended :
    (∀ w : FileWriterC, (w.close).2 = none → ((w.close).1.close).2 = none) ∧
    (∀ ws : List (Option MWriterC),
      (multiClose (multiClose ws).1).2 = none ∧ (multiClose (multiClose ws).1).1 = []) ∧
    (∀ w : ConsoleWriterSt, consoleCloserIdempotent w.out →
      (w.close).2 = none ∧ ((w.close).1.close).2 = none) := by
  refine ⟨?_, ?_, ?_⟩
  · intro w h
    obtain ⟨o, s, c⟩ := w
    cases o <;> cases s <;> cases c <;> simp_all [FileWriterC.close]
  · intro ws
    exact ⟨rfl, rfl⟩
  · intro w h
    cases hc : w.out.closeFn with
    | none => exact ⟨by simp [ConsoleWriterSt.close, hc], by simp [ConsoleWriterSt.close, hc]⟩
    | some f =>
      have hall := h f hc
      exact ⟨by simp [ConsoleWriterSt.close, hc, hall],
             by simp [ConsoleWriterSt.close, hc, hall]⟩

theorem close_idempotent_amended_witness :
    (((FileWriterC.mk true true true).close).1.close).2 = none ∧
    (multiClose (multiClose [some (MWriterC.mk "w" none)]).1).2 = none ∧
    (((ConsoleWriterSt.mk (UnderlyingOut.mk none) 0).close).1.close).2 = none := by
  have h := close_idempotent_amended
  exact ⟨h.1 (FileWriterC.mk true true true) (by decide),
         (h.2.1 [some (MWriterC.mk "w" none)]).1,
         (h.2.2 (ConsoleWriterSt.mk (UnderlyingOut.mk none) 0)
            (fun f hf => by cases hf)).2⟩

theorem drainQ_eq (q sink : List LogEntryM) : drainQ q sink = sink ++ q := by
  induction q generalizing sink with
  | nil => simp [drainQ]
  | cons e rest ih => simp [drainQ, ih]

theorem run_count (evs : List Ev) (s : LogSys) (a : LogEntryM) :
    ((s.run evs).queue ++ (s.run evs).sink).count a
      = (s.queue ++ s.sink ++ accepted s.minLevel evs).count a := by
  induction evs generalizing s with
  | nil => simp [LogSys.run, accepted]
  | cons ev rest ih =>
    cases ev with
    | log e =>
      by_cases hl : e.level.ltB s.minLevel
      · have hstep : (s.logStep e).1 = s := by simp [LogSys.logStep, hl]
        simp only [LogSys.run, hstep]
        rw [ih]
        simp [accepted, hl]
      · by_cases hq : s.queue.length < s.cap
        · have hstep : (s.logStep e).1 = { s with queue := s.queue ++ [e] } := by
            simp [LogSys.logStep, hl, hq]
          simp only [LogSys.run, hstep]
          rw [ih]
          simp [accepted, hl, List.count_append, List.count_cons]
          omega
        · have hstep : (s.logStep e).1 = { s with sink := s.sink ++ [e] } := by
            simp [LogSys.logStep, hl, hq]
          simp only [LogSys.run, hstep]
          rw [ih]
          simp [accepted, hl, List.count_append, List.count_cons]
    | work =>
      cases hq : s.queue with
      | nil =>
        have hstep : s.workerStep = s := by simp [LogSys.workerStep, hq]
        simp only [LogSys.run, hstep]
        rw [ih]
        simp [accepted, hq]
      | cons h t =>
        have hstep : s.workerStep = { s with queue := t, sink := s.sink ++ [h] } := by
          simp [LogSys.workerStep, hq]
        simp only [LogSys.run, hstep]
        rw [ih]
        simp [accepted, hq, List.count_append, List.count_cons]
        omega

/-- C6: in the queue model of `adapter.log` / `processLogs`, a call at
or above the minimum level is never dropped: it is enqueued when the
bounded buffer has room and otherwise written synchronously on the
calling thread; and over any execution, after the shutdown drain the
sink holds exactly the accepted entries — each exactly once, none
dropped, none duplicated. -/
theorem backpressure_no_loss (cp : Nat) (lv : Level) (evs : List Ev) :
    (((LogSys.mk cp lv [] []).run evs).drain).queue = [] ∧
    ((((LogSys.mk cp lv [] []).run evs).drain).sink).Perm (accepted lv evs) ∧
    (∀ (s : LogSys) (e : LogEntryM), e.level.ltB s.minLevel = false →
      ((s.logStep e).2 = .queued ∨ (s.logStep e).2 = .syncWritten)) := by
  refine ⟨rfl, ?_, ?_⟩
  · apply List.perm_iff_count.mpr
    intro a
    have h := run_count evs (LogSys.mk cp lv [] []) a
    simp only [LogSys.drain, drainQ_eq]
    simp [List.count_append] at h ⊢
    omega
  · intro s e hl
    by_cases hq : s.queue.length < s.cap <;> simp [LogSys.logStep, hl, hq]

theorem backpressure_no_loss_witness :
    ((((LogSys.mk 1 .info [] []).run demoEvs).drain).sink).Perm
      (accepted .info demoEvs) ∧
    (((LogSys.mk 1 .info [entA] []).logStep entB).2 = .queued ∨
     ((LogSys.mk 1 .info [entA] []).logStep entB).2 = .syncWritten) := by
  have h := backpressure_no_loss 1 .info demoEvs
  exact ⟨h.2.1, h.2.2 (LogSys.mk 1 .info [entA] []) entB (by decide)⟩

/-- C7 counterexample: the claim fails on the code.  `adapter` embeds
`logger.Config` by value and `WithFields` copies it
(`config: a.config`), so parent and derived logger hold independent
config structs; `SetLevel` mutates only the receiver's copy.  With the
parent at Info, deriving a child and then calling `SetLevel(Error)` on
the parent leaves the child's `GetLevel` at Info, not Error. -/
theorem setLevel_not_shared_counterexample :
    ((demoParent.setLevel .error).getLevel = .error) ∧
    ((demoParent.withFields []).getLevel = .info) ∧
    Level.info ≠ Level.error :=
  ⟨rfl, rfl, by decide⟩

/-- C7 (amended): a derived logger shares the parent's buffer channel,
done channel and waitgroup handles and extends the field list, but it
holds its own copy of the configuration taken at derivation time:
`SetLevel` on one adapter updates only that adapter's copy (and leaves
its fields and shared handles alone), so the other logger keeps
reporting the level it held when the two were related, as the
counterexample records. -/
theorem withFields_shares_worker_snapshot_config
    (a : AdapterM) (fs : List FieldV) (v : Level) :
    ((a.withFields fs).bufferId = a.bufferId ∧
     (a.withFields fs).doneId = a.doneId ∧
     (a.withFields fs).wgId = a.wgId) ∧
    (a.withFields fs).config = a.config ∧
    (a.withFields fs).fields = a.fields ++ fs ∧
    ((a.setLevel v).getLevel = v ∧
     (a.setLevel v).bufferId = a.bufferId ∧
     (a.setLevel v).doneId = a.doneId ∧
     (a.setLevel v).wgId = a.wgId ∧
     (a.setLevel v).fields = a.fields) ∧
    (a.withFields fs).getLevel = a.getLevel :=
  ⟨⟨rfl, rfl, rfl⟩, rfl, rfl, ⟨rfl, rfl, rfl, rfl, rfl⟩, rfl⟩

/-- C8 counterexample: the claim's template fails on the code at a
concrete entry.  The code renders the timestamp bare (no square
brackets) and pads the level on the right (`%-5s`,
left-justification), while the claimed template
`[timestamp] LEVEL [caller] message ...` brackets the timestamp and
"left-padded" puts the spaces on the left. -/
theorem textRender_template_counterexample :
    writeTextLog demoConfig demoEntry =
      "2026-01-01T00:00:00Z INFO  [main.go:10] hello \x7ba=1\x7d" ∧
    specTextRender demoConfig demoEntry =
      "[2026-01-01T00:00:00Z]  INFO [main.go:10] hello \x7ba=1\x7d" ∧
    writeTextLog demoConfig demoEntry ≠ specTextRender demoConfig demoEntry :=
  ⟨rfl, rfl, by decide⟩

/-- C8 (amended): in text mode an entry with timestamp enabled, a
caller and entry fields (and no configured global fields) renders as
`timestamp LEVEL [caller] message \x7bfield=value, ...\x7d` — the
timestamp bare, the level left-justified in a fixed width-5 field
(spaces on the right), fields comma-joined inside braces, and string,
time and error field values double-quoted while other values use
default (`%v`) formatting. -/
theorem writeTextLog_template (cfg : AConfig) (e : LogEntryM)
    (ht : cfg.disableTimestamp = false) (hc : e.caller ≠ "")
    (hf : e.fields ≠ []) (ha : cfg.additionalFields = []) :
    writeTextLog cfg e =
      e.timestampFmt ++ " " ++ (padLevel e.level ++ " ") ++
      ("[" ++ e.caller ++ "] ") ++ e.message ++
      (" \x7b" ++ joinComma e.fields ++ "\x7d") ∧
    (∀ l : Level, (padLevel l).length = 5) ∧
    (∀ k s, writeField (FieldV.mk k (.str s)) = k ++ "=" ++ ("\"" ++ s ++ "\"")) ∧
    (∀ k t, writeField (FieldV.mk k (.time t)) = k ++ "=" ++ ("\"" ++ t ++ "\"")) ∧
    (∀ k m, writeField (FieldV.mk k (.err m)) = k ++ "=" ++ ("\"" ++ m ++ "\"")) ∧
    (∀ k v, writeField (FieldV.mk k (.other v)) = k ++ "=" ++ v) ∧
    (∀ f g rest, joinComma (f :: g :: rest) = writeField f ++ ", " ++ joinComma (g :: rest)) := by
  refine ⟨?_, fun l => by cases l <;> rfl,
    fun k s => rfl, fun k t => rfl, fun k m => rfl, fun k v => rfl,
    fun f g rest => rfl⟩
  have hfl : 0 < e.fields.length := List.length_pos.mpr hf
  simp [writeTextLog, ht, hc, ha, hfl, joinComma, String.append_assoc,
    String.append_empty, String.empty_append]

theorem writeTextLog_template_witness :
    writeTextLog demoConfig demoEntry =
      demoEntry.timestampFmt ++ " " ++ (padLevel demoEntry.level ++ " ") ++
      ("[" ++ demoEntry.caller ++ "] ") ++ demoEntry.message ++
      (" \x7b" ++ joinComma demoEntry.fields ++ "\x7d") ∧
    (padLevel Level.info).length = 5 :=
  ⟨(writeTextLog_template demoConfig demoEntry (by decide) (by decide)
      (by decide) (by decide)).1,
   (writeTextLog_template demoConfig demoEntry (by decide) (by decide)
      (by decide) (by decide)).2.1 Level.info⟩

/-- C9: `WithFields` is append-only with no deduplication: the derived
logger's field list is exactly the parent's list followed by the
arguments in order; deriving with `a:1` and then `a:2` keeps both
occurrences, and the text rendering of a resulting entry contains both
`a=1` and `a=2`. -/
theorem withFields_append_no_dedup :
    (∀ (a : AdapterM) (fs : List FieldV), (a.withFields fs).fields = a.fields ++ fs) ∧
    demoEntryDup.fields =
      [FieldV.mk "a" (.other "1"), FieldV.mk "a" (.other "2")] ∧
    writeTextLog demoConfig demoEntryDup = "ts INFO  m \x7ba=1, a=2\x7d" ∧
    strHas (writeTextLog demoConfig demoEntryDup) "a=1" ∧
    strHas (writeTextLog demoConfig demoEntryDup) "a=2" := by
  refine ⟨fun a fs => rfl, by decide, by rfl, ?_, ?_⟩
  · exact ⟨"ts INFO  m \x7b".data, ", a=2\x7d".data, by decide⟩
  · exact ⟨"ts INFO  m \x7ba=1, ".data, "\x7d".data, by decide⟩

/-- C10: `adapter.Sync` is not idempotent: any call that returns
(closing the shared `done` and `buffer` channels) leaves both channels
closed, and a second `Sync` on any logger of the family — all derived
loggers alias the same two channels — panics in `close(a.done)` with
Go's "close of closed channel" runtime error instead of returning. -/
theorem sync_not_idempotent_spec (s s' : SyncState)
    (h : adapterSync s = .ok s') :
    s' = SyncState.mk true true ∧
    adapterSync s' = .error "close of closed channel" := by
  cases hd : s.doneClosed <;> cases hb : s.bufferClosed <;>
    simp [adapterSync, closeChan, hd, hb] at h ⊢ <;> simp [← h, adapterSync, closeChan]

theorem sync_not_idempotent_spec_witness :
    SyncState.mk true true = SyncState.mk true true ∧
    adapterSync (SyncState.mk true true) = .error "close of closed channel" :=
  sync_not_idempotent_spec (SyncState.mk false false) (SyncState.mk true true) (by rfl)

end GoBase
